/-
  Verification of the query-construction and result-normalization pipeline of
  the `get_poi-osm` OpenStreetMap POI client (src/PoiOsm.cpp, include/PoiOsm.hpp).

  Modelling conventions:
  * JSON values (nlohmann::json) are modelled by the inductive type `Json`,
    with numbers as exact rationals (the C++ `double` values in play are
    small decimal literals, for which rational arithmetic is exact).
  * C++ exceptions that escape a function (nlohmann type errors,
    `std::stod` failures) are modelled as the `.error` arm of `Except String`;
    caught exceptions are modelled by the handler's resulting error string.
  * Iteration with `+=` / `push_back` is modelled by structural recursion
    over Lean lists in the same order as the C++ loops.
-/
import Mathlib

namespace PoiOsm

/-- Model of nlohmann::json values. Numbers are exact rationals. -/
inductive Json where
  | null
  | bool (b : Bool)
  | num (q : ℚ)
  | str (s : String)
  | arr (elems : List Json)
  | obj (fields : List (String × Json))
  deriving Repr

namespace Json

/-- Object field lookup (first binding wins, as after nlohmann parsing
objects have unique keys). Returns `none` on non-objects. -/
def lookup : Json → String → Option Json
  | .obj fields, k => fields.lookup k
  | _, _ => none

/-- Model of `json.contains(key)`: false on non-objects. -/
def containsKey (j : Json) (k : String) : Bool := (j.lookup k).isSome

/-- Model of `json.is_object()`. -/
def isObj : Json → Bool
  | .obj _ => true
  | _ => false

/-- Model of `json.is_array()`. -/
def isArr : Json → Bool
  | .arr _ => true
  | _ => false

/-- Model of `obj.value(key, stringDefault)`: the stored string if the key is
present with a string value, the default if absent; `none` models the
`type_error` thrown when the receiver is not an object or the stored value
is not a string. -/
def valueStr : Json → String → String → Option String
  | .obj fields, k, d =>
    match fields.lookup k with
    | some (.str s) => some s
    | some _ => none
    | none => some d
  | _, _, _ => none

/-- Model of `obj.value(key, numericDefault)`: the stored number if present,
the default if absent; `none` models the `type_error` thrown when the
receiver is not an object or the stored value is not a number. -/
def valueNum : Json → String → ℚ → Option ℚ
  | .obj fields, k, d =>
    match fields.lookup k with
    | some (.num q) => some q
    | some _ => none
    | none => some d
  | _, _, _ => none

/-- Model of `obj.value(key, jsonDefault)` with a json-typed default: any
stored value is returned as-is (no conversion, so no type error); `none`
only when the receiver is not an object. -/
def valueJ : Json → String → Json → Option Json
  | .obj fields, k, d => some ((fields.lookup k).getD d)
  | _, _, _ => none

end Json

/-- Whitelist entry (`PoiWhitelistEntry` in PoiOsm.hpp): a tag key and an
optional value, empty value meaning "any value for that key". -/
structure PoiWhitelistEntry where
  key : String
  value : String
  deriving Repr, DecidableEq

/-- Normalized POI (one entry of `results.pois` built in `buildResultJson_`).
`name` is a Json value: the `name` tag's value when present, `Json.null`
otherwise; `tags` is the element's tags value (defaulted to an empty
object when absent). -/
structure Poi where
  lat : ℚ
  lon : ℚ
  name : Json
  tags : Json
  deriving Repr

/-- The whitelist-acceptance loop of `buildResultJson_` (PoiOsm.cpp lines
256-266): scan entries in order; an entry whose key is absent from `tags`
is skipped; when the key is present, the C++ reads the tag value as a
string (`std::string val = tags[w.key];`) — a non-string value throws,
modelled as `.error` — and accepts when the entry's value is empty or
equals the tag value. Returns `.ok false` when no entry matched. -/
def acceptLoop (tags : Json) : List PoiWhitelistEntry → Except String Bool
  | [] => .ok false
  | w :: rest =>
    match tags.lookup w.key with
    | none => acceptLoop tags rest
    | some (.str val) =>
      if w.value.isEmpty || val == w.value then .ok true else acceptLoop tags rest
    | some _ => .error "type_error: tag value is not a string"

/-- Processing of one raw element in the `buildResultJson_` loop (PoiOsm.cpp
lines 248-282): skip non-"node" elements, read `lat`/`lon`/`tags` with
defaults, run whitelist acceptance, and build the `Poi`. `.ok none` means
the element was skipped (wrong type or rejected); `.error` models an
uncaught nlohmann type error. -/
def normElement (whitelist : List PoiWhitelistEntry) (obj : Json) :
    Except String (Option Poi) :=
  match obj.valueStr "type" "" with
  | none => .error "type_error: element is not an object or type is not a string"
  | some ty =>
    if ty ≠ "node" then .ok none
    else
      match obj.valueNum "lat" 0 with
      | none => .error "type_error: lat is not a number"
      | some lat =>
        match obj.valueNum "lon" 0 with
        | none => .error "type_error: lon is not a number"
        | some lon =>
          match obj.valueJ "tags" (.obj []) with
          | none => .error "type_error: element is not an object"
          | some tags =>
            match (if whitelist.isEmpty then .ok true else acceptLoop tags whitelist :
                Except String Bool) with
            | .error msg => .error msg
            | .ok accepted =>
              if !accepted then .ok none
              else .ok (some { lat := lat, lon := lon
                               name := (tags.lookup "name").getD .null
                               tags := tags })

/-- The full `poisArray` loop of `buildResultJson_`: elements are processed
in input order and accepted POIs appended in that order; the first
uncaught type error aborts the whole batch. -/
def buildPois (whitelist : List PoiWhitelistEntry) :
    List Json → Except String (List Poi)
  | [] => .ok []
  | e :: rest =>
    match normElement whitelist e with
    | .error msg => .error msg
    | .ok p? =>
      match buildPois whitelist rest with
      | .error msg => .error msg
      | .ok tail =>
        match p? with
        | some p => .ok (p :: tail)
        | none => .ok tail

/-- The result document assembled by `buildResultJson_` (root JSON object),
with fixed provenance strings, the echoed query block and the results
block. -/
structure ResultDocument where
  schemaVersion : ℕ
  provider : String
  geocoder : String
  overpassEndpoint : String
  queryInput : Json
  resolvedCenterLat : ℚ
  resolvedCenterLon : ℚ
  radiusM : ℤ
  whitelistEcho : List (String × String)
  timestampUtc : String
  count : ℕ
  pois : List Poi
  deriving Repr

/-- Model of `PoiOsmClient::buildResultJson_` (PoiOsm.cpp lines 214-290).
The wall-clock timestamp is passed in as `now` (the C++ reads it from the
system clock). `results.count` is set from `poisArray.size()`. -/
def buildResultJson (centerLat centerLon : ℚ) (radiusMeters : ℤ)
    (whitelist : List PoiWhitelistEntry) (elements : List Json)
    (queryInput : Json) (now : String) : Except String ResultDocument :=
  match buildPois whitelist elements with
  | .error msg => .error msg
  | .ok pois =>
    .ok { schemaVersion := 1
          provider := "OpenStreetMap"
          geocoder := "Nominatim"
          overpassEndpoint := "https://overpass-api.de/api/interpreter"
          queryInput := queryInput
          resolvedCenterLat := centerLat
          resolvedCenterLon := centerLon
          radiusM := radiusMeters
          whitelistEcho := whitelist.map (fun w => (w.key, w.value))
          timestampUtc := now
          count := pois.length
          pois := pois }

/-! ## Query builder (`PoiOsmClient::buildOverpassQuery_`) -/

/-- Decimal digits of `n`, most significant first, by fuel-bounded division;
`fuel ≥ n` gives the full expansion. -/
def natDigitsAux : ℕ → ℕ → List Char
  | 0, _ => []
  | _ + 1, 0 => []
  | fuel + 1, n => natDigitsAux fuel (n / 10) ++ [Nat.digitChar (n % 10)]

/-- Decimal representation of a natural number. -/
def natStr (n : ℕ) : String := if n = 0 then "0" else String.mk (natDigitsAux n n)

/-- Model of `std::format("{}", i)` on an `int`: decimal digits with a
leading `-` for negative values. -/
def intStr (i : ℤ) : String :=
  if i < 0 then "-" ++ natStr i.natAbs else natStr i.natAbs

/-- Exactly six decimal digits of `n < 10⁶`, zero-padded on the left. -/
def pad6 (n : ℕ) : String :=
  String.mk ((List.range 6).reverse.map (fun k => Nat.digitChar (n / 10 ^ k % 10)))

/-- Model of `std::format("{:.6f}", x)` on exact rationals: optional sign,
the integer part, a point, and exactly six fractional digits of `|x|`
rounded to the nearest 10⁻⁶ (half away from zero; the values in play are
not near ties). Fixed notation — never scientific.
`m` is `⌊|x| · 10⁶ + 1/2⌋` computed on the numerator and denominator. -/
def format6 (q : ℚ) : String :=
  let m : ℕ := (q.num.natAbs * 2000000 + q.den) / (2 * q.den)
  (if q.num < 0 then "-" else "") ++ natStr (m / 1000000) ++ "." ++ pad6 (m % 1000000)

/-- The `center` fragment of `buildOverpassQuery_` (PoiOsm.cpp line 195):
`around:RADIUS,LAT,LON` with six-decimal coordinates. -/
def centerStr (radiusMeters : ℤ) (lat lon : ℚ) : String :=
  "around:" ++ intStr radiusMeters ++ "," ++ format6 lat ++ "," ++ format6 lon

/-- One whitelist clause of `buildOverpassQuery_` (PoiOsm.cpp lines 200-207):
`node(CENTER)["KEY"];` for an empty entry value, else
`node(CENTER)["KEY"="VALUE"];`. Key and value are embedded verbatim. -/
def clauseFor (center : String) (w : PoiWhitelistEntry) : String :=
  if w.value.isEmpty then "node(" ++ center ++ ")[\"" ++ w.key ++ "\"];"
  else "node(" ++ center ++ ")[\"" ++ w.key ++ "\"=\"" ++ w.value ++ "\"];"

/-- In-order concatenation of the clause strings, modelling the C++
`query += ...` loop. -/
def concatClauses : List String → String
  | [] => ""
  | c :: cs => c ++ concatClauses cs

/-- Model of `PoiOsmClient::buildOverpassQuery_` (PoiOsm.cpp lines 188-212):
header, one unfiltered node clause (empty whitelist) or the concatenation
of one clause per whitelist entry, and the `);out center;` footer. -/
def buildOverpassQuery (lat lon : ℚ) (radiusMeters : ℤ)
    (whitelist : List PoiWhitelistEntry) : String :=
  let center := centerStr radiusMeters lat lon
  let body :=
    if whitelist.isEmpty then "node(" ++ center ++ ");"
    else concatClauses (whitelist.map (clauseFor center))
  "[out:json][timeout:25];(" ++ body ++ ");out center;"

/-! ## A recognizer for well-formed generated queries -/

/-- Expect the literal `lit` as a prefix of `cs`; return the remainder. -/
def dropLit : List Char → List Char → Option (List Char)
  | [], cs => some cs
  | l :: ls, c :: cs => if c = l then dropLit ls cs else none
  | _ :: _, [] => none

/-- Consume one or more decimal digits; return the remainder. -/
def dropDigits1 : List Char → Option (List Char)
  | c :: cs => if c.isDigit then some (cs.dropWhile Char.isDigit) else none
  | [] => none

/-- Consume an optional leading minus sign. -/
def dropSign : List Char → List Char
  | c :: cs => if c = '-' then cs else c :: cs
  | [] => []

/-- Recognize an optionally signed decimal integer literal. -/
def checkInt (cs : List Char) : Option (List Char) := dropDigits1 (dropSign cs)

/-- Recognize an optionally signed fixed-point literal `DIGITS.DIGITS`
(no exponent: scientific notation is not recognized). -/
def checkFixed (cs : List Char) : Option (List Char) :=
  match dropDigits1 (dropSign cs) with
  | none => none
  | some cs =>
    match cs with
    | '.' :: cs => dropDigits1 cs
    | _ => none

/-- Recognize `around:RADIUS,LAT,LON`. -/
def checkCenter (cs : List Char) : Option (List Char) :=
  match dropLit "around:".toList cs with
  | none => none
  | some cs =>
    match checkInt cs with
    | none => none
    | some cs =>
      match dropLit [','] cs with
      | none => none
      | some cs =>
        match checkFixed cs with
        | none => none
        | some cs =>
          match dropLit [','] cs with
          | none => none
          | some cs => checkFixed cs

/-- Recognize one node clause: `node(CENTER);`, `node(CENTER)["K"];` or
`node(CENTER)["K"="V"];`, where the quoted key and value run up to the
next quote character. -/
def checkClause (cs : List Char) : Option (List Char) :=
  match dropLit "node(".toList cs with
  | none => none
  | some cs =>
    match checkCenter cs with
    | none => none
    | some cs =>
      match dropLit [')'] cs with
      | none => none
      | some cs =>
        match cs with
        | ';' :: rest => some rest
        | '[' :: '"' :: cs =>
          match cs.dropWhile (fun c => c != '"') with
          | '"' :: ']' :: ';' :: rest => some rest
          | '"' :: '=' :: '"' :: cs =>
            match cs.dropWhile (fun c => c != '"') with
            | '"' :: ']' :: ';' :: rest => some rest
            | _ => none
          | _ => none
        | _ => none

/-- Recognize one or more node clauses; a following `n` starts the next
clause, anything else ends the list. `fuel` bounds the recursion. -/
def checkClauses : ℕ → List Char → Option (List Char)
  | 0, _ => none
  | fuel + 1, cs =>
    match checkClause cs with
    | none => none
    | some rest =>
      if rest.head? = some 'n' then checkClauses fuel rest else some rest

/-- Executable recognizer for syntactically well-formed queries of the
shape this client is meant to generate:
`[out:json][timeout:25];(` one or more node clauses `);out center;`. -/
def wellFormedQuery (q : String) : Bool :=
  match dropLit "[out:json][timeout:25];(".toList q.toList with
  | none => false
  | some cs =>
    match checkClauses cs.length cs with
    | none => false
    | some cs =>
      match dropLit ");out center;".toList cs with
      | some [] => true
      | _ => false

/-! ## Locator (`PoiOsmClient::geocodeAddress_`) -/

/-- Numeric value of a run of decimal digit characters. -/
def digitsToNat (ds : List Char) : ℕ :=
  ds.foldl (fun acc c => 10 * acc + (c.toNat - 48)) 0

/-- Model of `std::stod` restricted to decimal notation: optional leading
whitespace, optional sign, integer digits, optional `.` and fractional
digits, optional decimal exponent; trailing characters are ignored.
`none` models the `std::invalid_argument` thrown when no digits are
found. (Hex, infinity and NaN forms are outside this model.) -/
def stod (s : String) : Option ℚ :=
  let cs := s.toList.dropWhile
    (fun c => c == ' ' || c == '\t' || c == '\n' || c == '\r')
  let (neg, cs) :=
    match cs with
    | '-' :: r => (true, r)
    | '+' :: r => (false, r)
    | r => (false, r)
  let (ip, cs) := cs.span Char.isDigit
  let (fp, cs) :=
    match cs with
    | '.' :: r => r.span Char.isDigit
    | r => ([], r)
  if ip.isEmpty && fp.isEmpty then none
  else
    let exp : ℤ :=
      match cs with
      | 'e' :: r | 'E' :: r =>
        let (eneg, r) :=
          match r with
          | '-' :: r2 => (true, r2)
          | '+' :: r2 => (false, r2)
          | r2 => (false, r2)
        let (ed, _) := r.span Char.isDigit
        if ed.isEmpty then 0
        else if eneg then -(digitsToNat ed : ℤ) else (digitsToNat ed : ℤ)
      | _ => 0
    -- value = digits(ip ++ fp) · 10 ^ (exp - |fp|), built directly with
    -- `mkRat` to keep the construction on the numerator/denominator level
    let mant : ℕ := digitsToNat (ip ++ fp)
    let e : ℤ := exp - fp.length
    let v : ℚ :=
      if 0 ≤ e then mkRat (Int.ofNat (mant * 10 ^ e.toNat)) 1
      else mkRat (Int.ofNat mant) (10 ^ (-e).toNat)
    some (if neg then -v else v)

/-- The response-parsing stage of `PoiOsmClient::geocodeAddress_`
(PoiOsm.cpp lines 133-150), applied to the parsed JSON body. A missing
`lat`/`lon` field is replaced by the default string `"0.0"` before
`std::stod` runs. `std::stod` failures and nlohmann type errors are
caught by `catch (const std::exception&)`, which reports
`"Error parsing coordinates: " ++ e.what()`; the two `e.what()` texts are
abbreviated here as `"stod"` and `"type_error"`. -/
def geocodeParse (json : Json) : Except String (ℚ × ℚ) :=
  match json with
  | .arr [] => .error "No geocoding result for address"
  | .arr (obj :: _) =>
    match obj.valueStr "lat" "0.0" with
    | none => .error "Error parsing coordinates: type_error"
    | some latS =>
      match stod latS with
      | none => .error "Error parsing coordinates: stod"
      | some lat =>
        match obj.valueStr "lon" "0.0" with
        | none => .error "Error parsing coordinates: type_error"
        | some lonS =>
          match stod lonS with
          | none => .error "Error parsing coordinates: stod"
          | some lon =>
            if lat = 0 ∧ lon = 0 then
              .error "Invalid coordinates in geocoding response"
            else .ok (lat, lon)
  | _ => .error "Invalid geocoding response: Not an array"

/-! ## Orchestrator response handling (`PoiOsmClient::queryOverpass_`) -/

/-- Range-based `for` over a json value in nlohmann: arrays iterate their
elements, objects their field values, `null` iterates zero times, and
other primitives once over themselves. -/
def Json.iter : Json → List Json
  | .arr es => es
  | .obj fields => fields.map Prod.snd
  | .null => []
  | j => [j]

/-- Model of `body.find("<html") != std::string::npos`. -/
def containsHtml (body : String) : Bool :=
  decide ("<html".toList <:+: body.toList)

/-- The response classification of `PoiOsmClient::queryOverpass_` after the
body has been parsed (PoiOsm.cpp lines 167-181): a `remark` field without
an `elements` field is surfaced as an Overpass API error; a response that
is not an object containing `elements` yields the overloaded-server error
when the raw body contains `"<html"` and the generic malformed-response
error otherwise; anything else is handed to `buildResultJson_`. A
non-string `remark` makes `get<std::string>()` throw past the local
handlers, modelled as a distinguished `.error`. -/
def handleOverpassParsed (lat lon : ℚ) (radiusMeters : ℤ)
    (whitelist : List PoiWhitelistEntry) (queryInput : Json) (now : String)
    (body : String) (json : Json) : Except String ResultDocument :=
  if json.containsKey "remark" && !json.containsKey "elements" then
    match json.lookup "remark" with
    | some (.str s) => .error ("Overpass API Error: " ++ s)
    | _ => .error "uncaught type_error: remark is not a string"
  else if !(json.isObj && json.containsKey "elements") then
    if containsHtml body then
      .error "Overpass API returned HTML error (server might be busy)"
    else .error "Invalid Overpass JSON response"
  else
    match json.lookup "elements" with
    | some elems =>
      buildResultJson lat lon radiusMeters whitelist elems.iter queryInput now
    | none => .error "unreachable: elements checked present"

/-! ## Spec-side predicates (transcribed from the specification text) -/

/-- The acceptance rule as the spec states it (§4.3): an empty whitelist
accepts everything; otherwise at least one entry must have its key present
among the tags with an empty entry value (wildcard) or a tag value equal
to the entry value, case-sensitively. -/
def specAccepts (whitelist : List PoiWhitelistEntry) (tags : Json) : Bool :=
  whitelist.isEmpty ||
    whitelist.any (fun w =>
      match tags.lookup w.key with
      | some (.str v) => w.value.isEmpty || v == w.value
      | _ => false)

/-- Spec-side test for whether a raw element contributes a POI: its `type`
field is exactly the string `"node"` and its tags (defaulted to an empty
object when absent) pass the acceptance rule. -/
def specContributes (whitelist : List PoiWhitelistEntry) (e : Json) : Bool :=
  (match e.lookup "type" with
   | some (.str ty) => ty == "node"
   | _ => false) &&
  specAccepts whitelist ((e.lookup "tags").getD (.obj []))

/-- The POI a well-typed accepted node element is normalized to (used to
state the round-trip property C7). -/
def extractPoi (e : Json) : Poi :=
  { lat := (e.valueNum "lat" 0).getD 0
    lon := (e.valueNum "lon" 0).getD 0
    name := (((e.lookup "tags").getD (.obj [])).lookup "name").getD .null
    tags := (e.lookup "tags").getD (.obj []) }

/-- `s` is a fixed-point decimal with exactly six digits after the point:
optional minus sign, at least one integer digit, `.`, exactly six digits,
nothing else — in particular no exponent marker. -/
def sixDecimal (s : String) : Bool :=
  match (dropSign s.toList).dropWhile Char.isDigit with
  | '.' :: fs =>
    !((dropSign s.toList).takeWhile Char.isDigit).isEmpty &&
      fs.length == 6 && fs.all Char.isDigit
  | _ => false

/-- The string contains no literal quote character. -/
def noQuote (s : String) : Bool := s.toList.all (fun c => c != '"')

/-- A concrete result document used to instantiate hypotheses of the
normalizer theorems at a checkable input. -/
def sampleEmptyDoc : ResultDocument :=
  { schemaVersion := 1
    provider := "OpenStreetMap"
    geocoder := "Nominatim"
    overpassEndpoint := "https://overpass-api.de/api/interpreter"
    queryInput := Json.null
    resolvedCenterLat := 0
    resolvedCenterLon := 0
    radiusM := 100
    whitelistEcho := []
    timestampUtc := "t"
    count := 0
    pois := [] }

/-! ## Helper lemmas -/

theorem valueStr_some_obj {e : Json} {k d s : String}
    (h : e.valueStr k d = some s) : ∃ fields, e = .obj fields := by
  cases e <;> first | exact ⟨_, rfl⟩ | simp [Json.valueStr] at h

/-! ## C4: results.count equals the length of results.pois -/

/-- C4: for every input element sequence (including the empty one), every
whitelist, center and radius, the emitted `results.count` equals the
length of `results.pois` in the constructed result document. -/
theorem count_eq_pois_length
    (centerLat centerLon : ℚ) (radiusMeters : ℤ)
    (whitelist : List PoiWhitelistEntry) (elements : List Json)
    (queryInput : Json) (now : String) (doc : ResultDocument)
    (h : buildResultJson centerLat centerLon radiusMeters whitelist elements
          queryInput now = .ok doc) :
    doc.count = doc.pois.length := by
  unfold buildResultJson at h
  split at h
  · exact Except.noConfusion h
  · injection h with h
    subst h
    rfl

theorem count_eq_pois_length_witness :
    buildResultJson 0 0 100 [] [] Json.null "t" = .ok sampleEmptyDoc ∧
    sampleEmptyDoc.count = sampleEmptyDoc.pois.length :=
  ⟨rfl, count_eq_pois_length 0 0 100 [] [] Json.null "t" sampleEmptyDoc rfl⟩

/-! ## C9: field defaults of an accepted node -/

/-- C9: for every accepted node element, a missing `lat` or `lon` yields 0
in the POI (not an error), a missing `tags` field yields an empty tags
object while present tags are carried over unmodified, and the POI name is
the `name` tag's value when that tag is present and JSON null when it is
absent — never the empty string for an absent name. -/
theorem accepted_node_defaults
    (whitelist : List PoiWhitelistEntry) (e : Json) (p : Poi)
    (h : normElement whitelist e = .ok (some p)) :
    (e.lookup "lat" = none → p.lat = 0) ∧
    (e.lookup "lon" = none → p.lon = 0) ∧
    (e.lookup "tags" = none → p.tags = .obj []) ∧
    (∀ t, e.lookup "tags" = some t → p.tags = t) ∧
    (∀ v, p.tags.lookup "name" = some v → p.name = v) ∧
    (p.tags.lookup "name" = none → p.name = .null ∧ p.name ≠ .str "") := by
  unfold normElement at h
  split at h
  · exact Except.noConfusion h
  next ty hty =>
    obtain ⟨fields, rfl⟩ := valueStr_some_obj hty
    split at h
    · exact Option.noConfusion (Except.ok.inj h)
    · split at h
      · exact Except.noConfusion h
      next lat hlat =>
        split at h
        · exact Except.noConfusion h
        next lon hlon =>
          split at h
          · exact Except.noConfusion h
          next tags htags =>
            split at h
            · exact Except.noConfusion h
            next accepted hacc =>
              split at h
              · exact Option.noConfusion (Except.ok.inj h)
              · replace h := Option.some.inj (Except.ok.inj h)
                subst h
                simp only [Json.valueJ, Option.some.injEq] at htags
                subst htags
                simp only [Json.lookup]
                refine ⟨?_, ?_, ?_, ?_, ?_, ?_⟩
                · intro h0
                  simp [Json.valueNum, h0] at hlat
                  simp [← hlat]
                · intro h0
                  simp [Json.valueNum, h0] at hlon
                  simp [← hlon]
                · intro h0
                  simp [h0]
                · intro t ht
                  simp [ht]
                · intro v hv
                  simp only [hv]
                  rfl
                · intro hv
                  simp only [hv]
                  exact ⟨rfl, by simp⟩

theorem accepted_node_defaults_witness :
    normElement [] (.obj [("type", .str "node")]) =
      .ok (some { lat := 0, lon := 0, name := .null, tags := .obj [] }) ∧
    ({ lat := 0, lon := 0, name := .null, tags := .obj [] } : Poi).name = .null :=
  ⟨rfl,
    ((accepted_node_defaults [] (.obj [("type", .str "node")])
      { lat := 0, lon := 0, name := .null, tags := .obj [] } rfl).2.2.2.2.2 rfl).1⟩

/-! ## C5: classification of the area-search response -/

/-- C5: for every parsed area-search response, a `remark` field without an
`elements` field surfaces the remark text as an upstream error (never a
zero-result success); a response that is not an object containing
`elements` yields the distinct overloaded-server error exactly when the
raw body contains markup, and the generic malformed-response error
otherwise; the two are different messages. -/
theorem overpass_response_classification
    (lat lon : ℚ) (radiusMeters : ℤ) (whitelist : List PoiWhitelistEntry)
    (queryInput : Json) (now : String) (body : String) (json : Json) :
    (∀ s, json.lookup "remark" = some (.str s) →
      json.containsKey "elements" = false →
      handleOverpassParsed lat lon radiusMeters whitelist queryInput now body json
        = .error ("Overpass API Error: " ++ s)) ∧
    (json.containsKey "remark" = false →
      (json.isObj && json.containsKey "elements") = false →
      containsHtml body = true →
      handleOverpassParsed lat lon radiusMeters whitelist queryInput now body json
        = .error "Overpass API returned HTML error (server might be busy)") ∧
    (json.containsKey "remark" = false →
      (json.isObj && json.containsKey "elements") = false →
      containsHtml body = false →
      handleOverpassParsed lat lon radiusMeters whitelist queryInput now body json
        = .error "Invalid Overpass JSON response") ∧
    "Overpass API returned HTML error (server might be busy)" ≠
      "Invalid Overpass JSON response" := by
  refine ⟨?_, ?_, ?_, by decide⟩
  · intro s h1 h2
    simp only [Json.containsKey] at h2
    simp [handleOverpassParsed, Json.containsKey, h1, h2]
  · intro h1 h2 h3
    simp only [Json.containsKey] at h1 h2
    simp [handleOverpassParsed, Json.containsKey, h1, h2, h3]
  · intro h1 h2 h3
    simp only [Json.containsKey] at h1 h2
    simp [handleOverpassParsed, Json.containsKey, h1, h2, h3]

theorem overpass_response_classification_witness :
    handleOverpassParsed 0 0 100 [] Json.null "t" "{}"
      (.obj [("remark", .str "runtime error: load too high")])
      = .error ("Overpass API Error: " ++ "runtime error: load too high") :=
  (overpass_response_classification 0 0 100 [] Json.null "t" "{}"
    (.obj [("remark", .str "runtime error: load too high")])).1
    "runtime error: load too high" rfl rfl

/-! ## C6: geocoding response branch outcomes -/

/-- C6: for every geocoding response, a non-array body, an empty array,
unparsable numeric `lat`/`lon` fields, and a first candidate whose `lat`
and `lon` both parse to exactly zero each yield a distinct error (the
(0,0) case is rejected, never returned as a success), and any other first
candidate yields success with its parsed coordinate pair. -/
theorem geocode_branch_outcomes :
    (∀ j : Json, j.isArr = false →
      geocodeParse j = .error "Invalid geocoding response: Not an array") ∧
    geocodeParse (.arr []) = .error "No geocoding result for address" ∧
    (∀ obj rest latS, obj.valueStr "lat" "0.0" = some latS → stod latS = none →
      geocodeParse (.arr (obj :: rest)) = .error "Error parsing coordinates: stod") ∧
    (∀ obj rest latS lonS, obj.valueStr "lat" "0.0" = some latS →
      stod latS = some 0 → obj.valueStr "lon" "0.0" = some lonS →
      stod lonS = some 0 →
      geocodeParse (.arr (obj :: rest)) =
        .error "Invalid coordinates in geocoding response") ∧
    (∀ obj rest latS lonS la lo, obj.valueStr "lat" "0.0" = some latS →
      stod latS = some la → obj.valueStr "lon" "0.0" = some lonS →
      stod lonS = some lo → ¬(la = 0 ∧ lo = 0) →
      geocodeParse (.arr (obj :: rest)) = .ok (la, lo)) ∧
    [ "Invalid geocoding response: Not an array",
      "No geocoding result for address",
      "Error parsing coordinates: stod",
      "Invalid coordinates in geocoding response" ].Pairwise (· ≠ ·) := by
  refine ⟨?_, rfl, ?_, ?_, ?_, by decide⟩
  · intro j hj
    cases j <;> first | rfl | simp [Json.isArr] at hj
  · intro obj rest latS h1 h2
    simp [geocodeParse, h1, h2]
  · intro obj rest latS lonS h1 h2 h3 h4
    simp [geocodeParse, h1, h2, h3, h4]
  · intro obj rest latS lonS la lo h1 h2 h3 h4 h5
    simp [geocodeParse, h1, h2, h3, h4, h5]

theorem geocode_branch_outcomes_witness :
    geocodeParse (.arr [.obj [("lat", .str "1"), ("lon", .str "2")]]) = .ok (1, 2) :=
  geocode_branch_outcomes.2.2.2.2.1
    (.obj [("lat", .str "1"), ("lon", .str "2")]) [] "1" "2" 1 2 rfl (by decide)
    rfl (by decide) (by norm_num)

/-! ## C10: missing geocoding fields default to "0.0" before parsing -/

/-- C10: when parsing the first geocoding candidate, a missing `lat` or
`lon` field is substituted with the string "0.0" before `std::stod` runs;
hence a candidate missing one field (with the other parsing to a non-zero
value) resolves successfully with 0 for the missing coordinate, and a
candidate missing both fields is rejected with the degenerate-(0,0) error
rather than a missing-field or parse error. -/
theorem geocode_missing_field_defaults :
    (∀ (fields : List (String × Json)) (k : String), fields.lookup k = none →
      (Json.obj fields).valueStr k "0.0" = some "0.0") ∧
    stod "0.0" = some 0 ∧
    (∀ fields rest lonS lo, fields.lookup "lat" = none →
      (Json.obj fields).valueStr "lon" "0.0" = some lonS → stod lonS = some lo →
      lo ≠ 0 →
      geocodeParse (.arr (.obj fields :: rest)) = .ok (0, lo)) ∧
    (∀ fields rest latS la, fields.lookup "lon" = none →
      (Json.obj fields).valueStr "lat" "0.0" = some latS → stod latS = some la →
      la ≠ 0 →
      geocodeParse (.arr (.obj fields :: rest)) = .ok (la, 0)) ∧
    (∀ fields rest, fields.lookup "lat" = none → fields.lookup "lon" = none →
      geocodeParse (.arr (.obj fields :: rest)) =
        .error "Invalid coordinates in geocoding response") := by
  have hstod : stod "0.0" = some 0 := by decide
  refine ⟨?_, hstod, ?_, ?_, ?_⟩
  · intro fields k hk
    simp [Json.valueStr, hk]
  · intro fields rest lonS lo hlat hlon hstodlon hlo
    have h1 : (Json.obj fields).valueStr "lat" "0.0" = some "0.0" := by
      simp [Json.valueStr, hlat]
    simp [geocodeParse, h1, hstod, hlon, hstodlon, hlo]
  · intro fields rest latS la hlon hlat hstodlat hla
    have h1 : (Json.obj fields).valueStr "lon" "0.0" = some "0.0" := by
      simp [Json.valueStr, hlon]
    simp [geocodeParse, hlat, hstodlat, h1, hstod, hla]
  · intro fields rest hlat hlon
    have h1 : (Json.obj fields).valueStr "lat" "0.0" = some "0.0" := by
      simp [Json.valueStr, hlat]
    have h2 : (Json.obj fields).valueStr "lon" "0.0" = some "0.0" := by
      simp [Json.valueStr, hlon]
    simp [geocodeParse, h1, h2, hstod]

theorem geocode_missing_field_defaults_witness :
    geocodeParse (.arr [.obj [("lon", .str "2")]]) = .ok (0, 2) :=
  geocode_missing_field_defaults.2.2.1 [("lon", .str "2")] [] "2" 2
    rfl rfl (by decide) (by norm_num)

/-! ## C2 (code bug): quote characters are embedded verbatim -/

/-- C2: the Query Builder neither escapes nor rejects a quote character in
a whitelist entry. At the concrete entry `amenity = a"b` the generated
query embeds the value verbatim, carries an odd number of quote
characters (an unterminated quoted string), and fails the well-formedness
recognizer — the generated query is corrupted, contradicting the spec's
requirement to escape or reject. -/
theorem quote_embedded_verbatim :
    buildOverpassQuery 0 0 100 [{ key := "amenity", value := "a\"b" }] =
      "[out:json][timeout:25];(node(around:100,0.000000,0.000000)[\"amenity\"=\"a\"b\"];);out center;" ∧
    (buildOverpassQuery 0 0 100
      [{ key := "amenity", value := "a\"b" }]).toList.count '"' % 2 = 1 ∧
    wellFormedQuery (buildOverpassQuery 0 0 100
      [{ key := "amenity", value := "a\"b" }]) = false :=
  ⟨rfl, rfl, rfl⟩

/-! ## C1: a POI is emitted iff the element is a node passing acceptance -/

theorem acceptLoop_ok_any (tags : Json) :
    ∀ (wl : List PoiWhitelistEntry) (b : Bool), acceptLoop tags wl = .ok b →
      (wl.any fun w =>
        match tags.lookup w.key with
        | some (.str v) => w.value.isEmpty || v == w.value
        | _ => false) = b := by
  intro wl
  induction wl with
  | nil =>
    intro b h
    simp only [acceptLoop] at h
    injection h
  | cons w rest ih =>
    intro b h
    simp only [acceptLoop] at h
    split at h
    next heq =>
      rw [List.any_cons, heq, ih b h]
      rfl
    next v heq =>
      rw [List.any_cons, heq]
      split at h
      next hc =>
        injection h with h
        simp [hc, ← h]
      next hc =>
        simp only [Bool.not_eq_true] at hc
        simp [hc, ih b h]
    next j h1 h2 heq =>
      exact Except.noConfusion h

theorem normElement_ok_isSome
    (whitelist : List PoiWhitelistEntry) (e : Json) (r : Option Poi)
    (h : normElement whitelist e = .ok r) :
    r.isSome = specContributes whitelist e := by
  unfold normElement at h
  split at h
  · exact Except.noConfusion h
  next ty hty =>
    obtain ⟨fields, rfl⟩ := valueStr_some_obj hty
    simp only [Json.valueStr] at hty
    unfold specContributes
    simp only [Json.lookup]
    split at hty
    all_goals rename_i hl
    · -- type field is a string
      rename_i s
      injection hty with hty
      subst hty
      rw [hl]
      split at h
      next hne =>
        injection h with h
        subst h
        simp only [ne_eq] at hne
        have : (s == "node") = false := by
          simp [hne]
        simp [this]
      next hne =>
        simp only [ne_eq, not_not] at hne
        subst hne
        simp only [beq_self_eq_true, Bool.true_and]
        split at h
        · exact Except.noConfusion h
        next lat hlat =>
          split at h
          · exact Except.noConfusion h
          next lon hlon =>
            split at h
            · exact Except.noConfusion h
            next tags htags =>
              simp only [Json.valueJ, Option.some.injEq] at htags
              subst htags
              split at h
              · exact Except.noConfusion h
              next accepted hacc =>
                by_cases hwl : whitelist.isEmpty = true
                · rw [if_pos hwl] at hacc
                  injection hacc with hacc
                  subst hacc
                  simp only [Bool.not_true, if_neg (by simp : ¬(false = true))] at h
                  injection h with h
                  subst h
                  simp [specAccepts, hwl]
                · rw [if_neg hwl] at hacc
                  have hany := acceptLoop_ok_any _ _ _ hacc
                  rw [Bool.not_eq_true] at hwl
                  cases accepted with
                  | true =>
                    simp only [Bool.not_true] at h
                    rw [if_neg (by simp : ¬(false = true))] at h
                    injection h with h
                    subst h
                    simp [specAccepts, hwl, hany]
                  | false =>
                    simp only [Bool.not_false, if_pos rfl] at h
                    injection h with h
                    subst h
                    simp [specAccepts, hwl, hany]
    · -- type field present but not a string
      exact Option.noConfusion hty
    · -- type field absent: ty = "", not "node"
      injection hty with hty
      subst hty
      rw [hl]
      rw [if_pos (by decide : ("" : String) ≠ "node")] at h
      injection h with h
      subst h
      rfl

/-- C1: for every raw element sequence, whitelist, center and radius, an
element contributes a POI to `results.pois` iff its `type` field is
exactly "node" and it passes whitelist acceptance: an empty whitelist
accepts every node, and otherwise at least one entry's key must be
present among the node's tags with the entry's value empty (wildcard) or
exactly, case-sensitively equal to the tag's value. -/
theorem poi_iff_node_and_whitelisted
    (whitelist : List PoiWhitelistEntry) (elements : List Json) (pois : List Poi)
    (h : buildPois whitelist elements = .ok pois) :
    pois.length = (elements.filter (specContributes whitelist)).length ∧
    ∀ e ∈ elements, (specContributes whitelist e = true ↔
      ∃ p, normElement whitelist e = .ok (some p)) := by
  induction elements generalizing pois with
  | nil =>
    simp only [buildPois] at h
    injection h with h
    subst h
    simp
  | cons e es ih =>
    simp only [buildPois] at h
    split at h
    · exact Except.noConfusion h
    next p? hn =>
      split at h
      · exact Except.noConfusion h
      next tail htail =>
        obtain ⟨ih1, ih2⟩ := ih tail htail
        have hspec := normElement_ok_isSome whitelist e p? hn
        constructor
        · cases p? with
          | some p =>
            simp only [Option.isSome_some] at hspec
            injection h with h
            subst h
            simp [List.filter_cons, ← hspec, ih1]
          | none =>
            simp only [Option.isSome_none] at hspec
            injection h with h
            subst h
            simp [List.filter_cons, ← hspec, ih1]
        · intro e0 he0
          rcases List.mem_cons.mp he0 with rfl | hmem
          · constructor
            · intro hs
              rw [← hspec] at hs
              obtain ⟨p, hp⟩ := Option.isSome_iff_exists.mp hs
              exact ⟨p, hp ▸ hn⟩
            · rintro ⟨p, hp⟩
              rw [hn] at hp
              injection hp with hp
              rw [← hspec, hp]
              rfl
          · exact ih2 e0 hmem

theorem poi_iff_node_and_whitelisted_witness :
    buildPois [{ key := "shop", value := "bakery" }]
      [.obj [("type", .str "node"), ("tags", .obj [("shop", .str "bakery")])],
       .obj [("type", .str "way")],
       .obj [("type", .str "node"), ("tags", .obj [("shop", .str "butcher")])]] =
      .ok [{ lat := 0, lon := 0, name := .null,
             tags := .obj [("shop", .str "bakery")] }] ∧
    ([({ lat := 0, lon := 0, name := .null,
         tags := .obj [("shop", .str "bakery")] } : Poi)]).length =
      ([.obj [("type", .str "node"), ("tags", .obj [("shop", .str "bakery")])],
        .obj [("type", .str "way")],
        .obj [("type", .str "node"),
          ("tags", .obj [("shop", .str "butcher")])]].filter
        (specContributes [{ key := "shop", value := "bakery" }])).length :=
  ⟨rfl,
    (poi_iff_node_and_whitelisted [{ key := "shop", value := "bakery" }]
      [.obj [("type", .str "node"), ("tags", .obj [("shop", .str "bakery")])],
       .obj [("type", .str "way")],
       .obj [("type", .str "node"), ("tags", .obj [("shop", .str "butcher")])]]
      [{ lat := 0, lon := 0, name := .null,
         tags := .obj [("shop", .str "bakery")] }] rfl).1⟩

/-! ## C7: round-trip of fully accepted node sequences -/

/-- C7: feeding the normalizer a sequence of N elements of type "node"
that all satisfy a given non-empty whitelist yields exactly N POIs, in
the same order as the input sequence, each POI's tags mapping equal to
its source element's tags unmodified. -/
theorem normalizer_roundtrip
    (whitelist : List PoiWhitelistEntry) (elements : List Json)
    (hwl : whitelist ≠ [])
    (h : ∀ e ∈ elements,
      e.lookup "type" = some (.str "node") ∧
      (e.valueNum "lat" 0).isSome = true ∧
      (e.valueNum "lon" 0).isSome = true ∧
      acceptLoop ((e.lookup "tags").getD (.obj [])) whitelist = .ok true) :
    buildPois whitelist elements = .ok (elements.map extractPoi) ∧
    (elements.map extractPoi).length = elements.length ∧
    (elements.map extractPoi).map Poi.tags =
      elements.map (fun e => (e.lookup "tags").getD (.obj [])) := by
  have hempty : whitelist.isEmpty = false := by
    cases whitelist with
    | nil => exact absurd rfl hwl
    | cons w ws => rfl
  refine ⟨?_, by simp, ?_⟩
  · induction elements with
    | nil => rfl
    | cons e es ih =>
      obtain ⟨hty, hlat, hlon, hacc⟩ := h e (List.mem_cons_self e es)
      obtain ⟨fields, rfl⟩ : ∃ fields, e = .obj fields := by
        cases e <;> first | exact ⟨_, rfl⟩ | simp [Json.lookup] at hty
      simp only [Json.lookup] at hty hacc
      obtain ⟨la, hla⟩ := Option.isSome_iff_exists.mp hlat
      obtain ⟨lo, hlo⟩ := Option.isSome_iff_exists.mp hlon
      have hvs : Json.valueStr (.obj fields) "type" "" = some "node" := by
        simp [Json.valueStr, hty]
      have hvj : Json.valueJ (.obj fields) "tags" (.obj []) =
          some ((fields.lookup "tags").getD (.obj [])) := rfl
      have hne : normElement whitelist (.obj fields) =
          .ok (some (extractPoi (.obj fields))) := by
        simp only [normElement, hvs, hla, hlo, hvj, hempty, hacc, ne_eq,
          not_true_eq_false, if_false, Bool.false_eq_true, Bool.not_true,
          Bool.not_false, if_true, Except.ok.injEq, Option.some.injEq]
        unfold extractPoi
        simp [Json.lookup, hla, hlo]
      simp only [buildPois, List.map_cons]
      rw [hne]
      rw [ih (fun e he => h e (List.mem_cons_of_mem _ he))]
  · simp only [List.map_map]
    exact List.map_congr_left fun e he => rfl

theorem normalizer_roundtrip_witness :
    buildPois [{ key := "amenity", value := "" }]
      [.obj [("type", .str "node"), ("tags", .obj [("amenity", .str "pub")])]] =
      .ok ([.obj [("type", .str "node"),
        ("tags", .obj [("amenity", .str "pub")])]].map extractPoi) :=
  (normalizer_roundtrip [{ key := "amenity", value := "" }]
    [.obj [("type", .str "node"), ("tags", .obj [("amenity", .str "pub")])]]
    (List.cons_ne_nil _ _)
    (by
      intro e he
      rw [List.mem_singleton] at he
      subst he
      exact ⟨rfl, rfl, rfl, rfl⟩)).1

/-! ## Character classes of the generated numeral strings -/

theorem toList_mk (l : List Char) : (String.mk l).toList = l := rfl

theorem toList_append (s t : String) : (s ++ t).toList = s.toList ++ t.toList := rfl

theorem digitChar_isDigit : ∀ d : ℕ, d < 10 → (Nat.digitChar d).isDigit = true := by
  decide

theorem natDigitsAux_isDigit :
    ∀ fuel n : ℕ, ∀ c ∈ natDigitsAux fuel n, c.isDigit = true := by
  intro fuel
  induction fuel with
  | zero => intro n c hc; simp [natDigitsAux] at hc
  | succ f ih =>
    intro n c hc
    match n with
    | 0 => simp [natDigitsAux] at hc
    | m + 1 =>
      simp only [natDigitsAux, List.mem_append, List.mem_singleton] at hc
      rcases hc with hc | hc
      · exact ih _ c hc
      · subst hc
        exact digitChar_isDigit _ (Nat.mod_lt _ (by norm_num))

theorem natStr_isDigit (n : ℕ) : ∀ c ∈ (natStr n).toList, c.isDigit = true := by
  intro c hc
  unfold natStr at hc
  split at hc
  · simp only [show ("0" : String).toList = ['0'] from rfl,
      List.mem_singleton] at hc
    subst hc
    decide
  · exact natDigitsAux_isDigit _ _ _ hc

theorem natStr_toList_ne_nil (n : ℕ) : (natStr n).toList ≠ [] := by
  unfold natStr
  split
  · decide
  next hn =>
    cases n with
    | zero => exact absurd rfl hn
    | succ m => simp [toList_mk, natDigitsAux]

theorem intStr_toList (i : ℤ) :
    (intStr i).toList = (if i < 0 then ['-'] else []) ++ (natStr i.natAbs).toList := by
  unfold intStr
  split <;> rfl

theorem pad6_length (n : ℕ) : (pad6 n).toList.length = 6 := by
  simp [pad6, toList_mk]

theorem pad6_isDigit (n : ℕ) : ∀ c ∈ (pad6 n).toList, c.isDigit = true := by
  intro c hc
  simp only [pad6, toList_mk, List.mem_map] at hc
  obtain ⟨k, _, rfl⟩ := hc
  exact digitChar_isDigit _ (Nat.mod_lt _ (by norm_num))

theorem format6_shape (q : ℚ) :
    ∃ sgn ip fp : List Char,
      (format6 q).toList = sgn ++ ip ++ '.' :: fp ∧
      (sgn = [] ∨ sgn = ['-']) ∧ ip ≠ [] ∧ (∀ c ∈ ip, c.isDigit = true) ∧
      fp.length = 6 ∧ (∀ c ∈ fp, c.isDigit = true) := by
  refine ⟨(if q.num < 0 then "-" else "").toList,
    (natStr ((q.num.natAbs * 2000000 + q.den) / (2 * q.den) / 1000000)).toList,
    (pad6 ((q.num.natAbs * 2000000 + q.den) / (2 * q.den) % 1000000)).toList,
    ?_, ?_, natStr_toList_ne_nil _, natStr_isDigit _,
    pad6_length _, pad6_isDigit _⟩
  · show ((if q.num < 0 then "-" else "") ++
      natStr ((q.num.natAbs * 2000000 + q.den) / (2 * q.den) / 1000000) ++ "." ++
      pad6 ((q.num.natAbs * 2000000 + q.den) / (2 * q.den) % 1000000)).toList = _
    simp only [toList_append, List.append_assoc]
    rfl
  · split <;> simp

/-! ## Recognizer stepping lemmas -/

theorem dropLit_append (lit rest : List Char) : dropLit lit (lit ++ rest) = some rest := by
  induction lit with
  | nil => rfl
  | cons c cs ih => simp [dropLit, ih]

theorem dropWhile_all_append (p : Char → Bool) (l rest : List Char)
    (hl : ∀ c ∈ l, p c = true)
    (hrest : ∀ c, rest.head? = some c → p c = false) :
    (l ++ rest).dropWhile p = rest := by
  induction l with
  | nil =>
    cases rest with
    | nil => rfl
    | cons c r => simp [List.dropWhile_cons, hrest c rfl]
  | cons c cs ih =>
    simp [List.dropWhile_cons, hl c (List.mem_cons_self _ _),
      ih (fun c hc => hl c (List.mem_cons_of_mem _ hc))]

theorem dropDigits1_append (ds rest : List Char) (hne : ds ≠ [])
    (hds : ∀ c ∈ ds, c.isDigit = true)
    (hrest : ∀ c, rest.head? = some c → c.isDigit = false) :
    dropDigits1 (ds ++ rest) = some rest := by
  cases ds with
  | nil => exact absurd rfl hne
  | cons c cs =>
    simp only [List.cons_append, dropDigits1]
    rw [if_pos (hds c (List.mem_cons_self _ _))]
    rw [dropWhile_all_append _ _ _ (fun x hx => hds x (List.mem_cons_of_mem _ hx)) hrest]

theorem isDigit_ne_minus {c : Char} (h : c.isDigit = true) : ¬(c = '-') := by
  intro hc
  subst hc
  simp at h

theorem dropSign_digits (l rest : List Char) (hne : l ≠ [])
    (hl : ∀ c ∈ l, c.isDigit = true) :
    dropSign (l ++ rest) = l ++ rest := by
  cases l with
  | nil => exact absurd rfl hne
  | cons c cs =>
    simp only [List.cons_append, dropSign]
    rw [if_neg (isDigit_ne_minus (hl c (List.mem_cons_self _ _)))]

theorem dropLit_cons (c : Char) (rest : List Char) :
    dropLit [c] (c :: rest) = some rest := by
  simp [dropLit]

theorem checkInt_intStr (r : ℤ) (rest : List Char)
    (hrest : ∀ c, rest.head? = some c → c.isDigit = false) :
    checkInt ((intStr r).toList ++ rest) = some rest := by
  unfold checkInt
  rw [intStr_toList, List.append_assoc]
  by_cases hlt : r < 0
  · rw [if_pos hlt]
    simp only [List.singleton_append]
    rw [show dropSign ('-' :: ((natStr r.natAbs).toList ++ rest)) =
      (natStr r.natAbs).toList ++ rest by simp [dropSign]]
    exact dropDigits1_append _ _ (natStr_toList_ne_nil _) (natStr_isDigit _) hrest
  · rw [if_neg hlt]
    rw [List.nil_append]
    rw [dropSign_digits _ rest (natStr_toList_ne_nil _) (natStr_isDigit _)]
    exact dropDigits1_append _ _ (natStr_toList_ne_nil _) (natStr_isDigit _) hrest

theorem checkFixed_shape (sgn ip fp rest : List Char)
    (hsgn : sgn = [] ∨ sgn = ['-']) (hip : ip ≠ [])
    (hipd : ∀ c ∈ ip, c.isDigit = true)
    (hfp : fp ≠ []) (hfpd : ∀ c ∈ fp, c.isDigit = true)
    (hrest : ∀ c, rest.head? = some c → c.isDigit = false) :
    checkFixed ((sgn ++ ip ++ '.' :: fp) ++ rest) = some rest := by
  unfold checkFixed
  have hds : dropSign ((sgn ++ ip ++ '.' :: fp) ++ rest) =
      ip ++ '.' :: (fp ++ rest) := by
    rcases hsgn with rfl | rfl
    · have := dropSign_digits ip ('.' :: (fp ++ rest)) hip hipd
      simpa [List.append_assoc] using this
    · simp [dropSign, List.append_assoc]
  rw [hds]
  rw [dropDigits1_append ip ('.' :: (fp ++ rest)) hip hipd
    (by intro c hc; injection hc with hc; subst hc; decide)]
  show dropDigits1 (fp ++ rest) = some rest
  exact dropDigits1_append fp rest hfp hfpd hrest

theorem checkCenter_append (radiusMeters : ℤ) (lat lon : ℚ) (rest : List Char)
    (hrest : ∀ c, rest.head? = some c → c.isDigit = false) :
    checkCenter ((centerStr radiusMeters lat lon).toList ++ rest) = some rest := by
  obtain ⟨sgn1, ip1, fp1, heq1, hsgn1, hip1, hipd1, hfplen1, hfpd1⟩ := format6_shape lat
  obtain ⟨sgn2, ip2, fp2, heq2, hsgn2, hip2, hipd2, hfplen2, hfpd2⟩ := format6_shape lon
  have hfp1 : fp1 ≠ [] := by intro h; rw [h] at hfplen1; simp at hfplen1
  have hfp2 : fp2 ≠ [] := by intro h; rw [h] at hfplen2; simp at hfplen2
  have hcomma : ∀ (x : List Char) (c : Char), (',' :: x).head? = some c → c.isDigit = false := by
    intro x c hc; injection hc with hc; subst hc; decide
  have hc : (centerStr radiusMeters lat lon).toList ++ rest =
      "around:".toList ++ ((intStr radiusMeters).toList ++ (',' ::
        ((sgn1 ++ ip1 ++ '.' :: fp1) ++ (',' ::
          ((sgn2 ++ ip2 ++ '.' :: fp2) ++ rest))))) := by
    unfold centerStr
    simp only [toList_append, heq1, heq2, List.append_assoc, List.cons_append]
    rfl
  have h1 := dropLit_append "around:".toList
    ((intStr radiusMeters).toList ++ (',' ::
      ((sgn1 ++ ip1 ++ '.' :: fp1) ++ (',' ::
        ((sgn2 ++ ip2 ++ '.' :: fp2) ++ rest)))))
  have h2 := checkInt_intStr radiusMeters
    (',' :: ((sgn1 ++ ip1 ++ '.' :: fp1) ++ (',' ::
      ((sgn2 ++ ip2 ++ '.' :: fp2) ++ rest)))) (hcomma _)
  have h3 := dropLit_cons ','
    ((sgn1 ++ ip1 ++ '.' :: fp1) ++ (',' ::
      ((sgn2 ++ ip2 ++ '.' :: fp2) ++ rest)))
  have h4 := checkFixed_shape sgn1 ip1 fp1
    (',' :: ((sgn2 ++ ip2 ++ '.' :: fp2) ++ rest))
    hsgn1 hip1 hipd1 hfp1 hfpd1 (hcomma _)
  have h5 := dropLit_cons ',' ((sgn2 ++ ip2 ++ '.' :: fp2) ++ rest)
  have h6 := checkFixed_shape sgn2 ip2 fp2 rest
    hsgn2 hip2 hipd2 hfp2 hfpd2 hrest
  unfold checkCenter
  rw [hc]
  simp only [h1, h2, h3, h4, h5, h6]

theorem takeWhile_all_append (p : Char → Bool) (l rest : List Char)
    (hl : ∀ c ∈ l, p c = true)
    (hrest : ∀ c, rest.head? = some c → p c = false) :
    (l ++ rest).takeWhile p = l := by
  induction l with
  | nil =>
    cases rest with
    | nil => rfl
    | cons c r => simp [List.takeWhile_cons, hrest c rfl]
  | cons c cs ih =>
    simp [List.takeWhile_cons, hl c (List.mem_cons_self _ _),
      ih (fun c hc => hl c (List.mem_cons_of_mem _ hc))]

theorem dropWhile_quote (k rest : List Char) (hk : ∀ c ∈ k, (c != '"') = true) :
    (k ++ '"' :: rest).dropWhile (fun c => c != '"') = '"' :: rest :=
  dropWhile_all_append _ k ('"' :: rest) hk
    (by intro c hc; injection hc with hc; subst hc; decide)

theorem checkClause_unfiltered (radiusMeters : ℤ) (lat lon : ℚ) (rest : List Char) :
    checkClause (("node(" ++ centerStr radiusMeters lat lon ++ ");").toList ++ rest)
      = some rest := by
  unfold checkClause
  have hc : ("node(" ++ centerStr radiusMeters lat lon ++ ");").toList ++ rest =
      "node(".toList ++ ((centerStr radiusMeters lat lon).toList ++
        (')' :: ';' :: rest)) := by
    simp only [toList_append, List.append_assoc]
    rfl
  rw [hc]
  have h1 := dropLit_append "node(".toList
    ((centerStr radiusMeters lat lon).toList ++ (')' :: ';' :: rest))
  have h2 := checkCenter_append radiusMeters lat lon (')' :: ';' :: rest)
    (by intro c hcc; injection hcc with hcc; subst hcc; decide)
  have h3 := dropLit_cons ')' (';' :: rest)
  simp only [h1, h2, h3]

theorem checkClause_clauseFor (radiusMeters : ℤ) (lat lon : ℚ)
    (w : PoiWhitelistEntry) (rest : List Char)
    (hk : noQuote w.key = true) (hv : noQuote w.value = true) :
    checkClause ((clauseFor (centerStr radiusMeters lat lon) w).toList ++ rest)
      = some rest := by
  have hkl : ∀ c ∈ w.key.toList, (c != '"') = true := by
    simpa [noQuote, List.all_eq_true] using hk
  have hvl : ∀ c ∈ w.value.toList, (c != '"') = true := by
    simpa [noQuote, List.all_eq_true] using hv
  have h1 : ∀ tail, dropLit "node(".toList ("node(".toList ++ tail) = some tail :=
    fun tail => dropLit_append _ tail
  have h2 : ∀ tail, checkCenter ((centerStr radiusMeters lat lon).toList ++
      (')' :: tail)) = some (')' :: tail) :=
    fun tail => checkCenter_append radiusMeters lat lon (')' :: tail)
      (by intro c hcc; injection hcc with hcc; subst hcc; decide)
  have h3 : ∀ tail, dropLit [')'] (')' :: tail) = some tail :=
    fun tail => dropLit_cons ')' tail
  unfold clauseFor
  by_cases hve : w.value.isEmpty
  · rw [if_pos hve]
    unfold checkClause
    have hc : ("node(" ++ centerStr radiusMeters lat lon ++ ")[\"" ++ w.key ++
        "\"];").toList ++ rest =
        "node(".toList ++ ((centerStr radiusMeters lat lon).toList ++
          (')' :: '[' :: '"' :: (w.key.toList ++ '"' :: ']' :: ';' :: rest))) := by
      simp only [toList_append, List.append_assoc]
      rfl
    rw [hc]
    have h4 := dropWhile_quote w.key.toList (']' :: ';' :: rest) hkl
    simp only [h1, h2, h3, h4]
  · rw [if_neg hve]
    unfold checkClause
    have hc : ("node(" ++ centerStr radiusMeters lat lon ++ ")[\"" ++ w.key ++
        "\"=\"" ++ w.value ++ "\"];").toList ++ rest =
        "node(".toList ++ ((centerStr radiusMeters lat lon).toList ++
          (')' :: '[' :: '"' :: (w.key.toList ++ '"' :: '=' :: '"' ::
            (w.value.toList ++ '"' :: ']' :: ';' :: rest)))) := by
      simp only [toList_append, List.append_assoc]
      rfl
    rw [hc]
    have h4 := dropWhile_quote w.key.toList
      ('=' :: '"' :: (w.value.toList ++ '"' :: ']' :: ';' :: rest)) hkl
    have h5 := dropWhile_quote w.value.toList (']' :: ';' :: rest) hvl
    simp only [h1, h2, h3, h4, h5]

theorem clauseFor_head (center : String) (w : PoiWhitelistEntry) :
    (clauseFor center w).toList.head? = some 'n' := by
  unfold clauseFor
  split <;> rfl

theorem concatClauses_cons (c : String) (cs : List String) :
    concatClauses (c :: cs) = c ++ concatClauses cs := rfl

theorem concatClauses_singleton (c : String) : concatClauses [c] = c := by
  rw [concatClauses_cons]
  exact String.append_empty c

theorem concatClauses_length_ge (clauses : List String)
    (h : ∀ c ∈ clauses, c.toList ≠ []) :
    clauses.length ≤ (concatClauses clauses).toList.length := by
  induction clauses with
  | nil => simp
  | cons c cs ih =>
    rw [concatClauses_cons, toList_append, List.length_append, List.length_cons]
    have h1 : 1 ≤ c.toList.length := by
      have hne := h c (List.mem_cons_self _ _)
      cases hcl : c.toList with
      | nil => exact absurd hcl hne
      | cons _ _ => simp
    have h2 := ih (fun x hx => h x (List.mem_cons_of_mem _ hx))
    omega

theorem dropLit_self (lit : List Char) : dropLit lit lit = some [] := by
  have := dropLit_append lit []
  rwa [List.append_nil] at this

theorem checkClauses_concat :
    ∀ (clauses : List String) (rest : List Char) (fuel : ℕ),
      clauses.length ≤ fuel → clauses ≠ [] →
      (∀ c ∈ clauses, (∀ r, checkClause (c.toList ++ r) = some r) ∧
        c.toList.head? = some 'n') →
      rest.head? ≠ some 'n' →
      checkClauses fuel ((concatClauses clauses).toList ++ rest) = some rest := by
  intro clauses
  induction clauses with
  | nil => intro rest fuel _ hne _ _; exact absurd rfl hne
  | cons c cs ih =>
    intro rest fuel hfuel _ hcl hrest
    obtain ⟨hcheck, hhead⟩ := hcl c (List.mem_cons_self _ _)
    cases fuel with
    | zero => simp at hfuel
    | succ f =>
      unfold checkClauses
      rw [concatClauses_cons, toList_append, List.append_assoc]
      rw [hcheck ((concatClauses cs).toList ++ rest)]
      cases cs with
      | nil =>
        show (if (((concatClauses []).toList ++ rest).head? = some 'n') then _
          else some ((concatClauses []).toList ++ rest)) = some rest
        rw [show (concatClauses []).toList ++ rest = rest from rfl]
        rw [if_neg hrest]
      | cons c2 cs2 =>
        obtain ⟨_, hhead2⟩ :=
          hcl c2 (List.mem_cons_of_mem _ (List.mem_cons_self _ _))
        obtain ⟨t, ht⟩ : ∃ t, c2.toList = 'n' :: t := by
          cases hc2 : c2.toList with
          | nil => rw [hc2] at hhead2; exact absurd hhead2 (by simp)
          | cons x xs =>
            rw [hc2] at hhead2
            injection hhead2 with hx
            exact ⟨xs, by rw [hx]⟩
        have hh : ((concatClauses (c2 :: cs2)).toList ++ rest).head? = some 'n' := by
          rw [concatClauses_cons, toList_append, ht]
          rfl
        show (if ((concatClauses (c2 :: cs2)).toList ++ rest).head? = some 'n' then
            checkClauses f ((concatClauses (c2 :: cs2)).toList ++ rest)
          else some ((concatClauses (c2 :: cs2)).toList ++ rest)) = some rest
        rw [if_pos hh]
        refine ih rest f ?_ (List.cons_ne_nil _ _)
          (fun x hx => hcl x (List.mem_cons_of_mem _ hx)) hrest
        rw [List.length_cons] at hfuel
        omega

theorem wellFormedQuery_build (clauses : List String)
    (hne : clauses ≠ [])
    (hcl : ∀ c ∈ clauses, (∀ r, checkClause (c.toList ++ r) = some r) ∧
      c.toList.head? = some 'n') :
    wellFormedQuery ("[out:json][timeout:25];(" ++ concatClauses clauses ++
      ");out center;") = true := by
  unfold wellFormedQuery
  have hdecomp : ("[out:json][timeout:25];(" ++ concatClauses clauses ++
      ");out center;").toList =
      "[out:json][timeout:25];(".toList ++ ((concatClauses clauses).toList ++
        ");out center;".toList) := by
    simp only [toList_append, List.append_assoc]
  rw [hdecomp]
  have hlen : clauses.length ≤
      ((concatClauses clauses).toList ++ ");out center;".toList).length := by
    have h1 := concatClauses_length_ge clauses (fun c hc => by
      have hd := (hcl c hc).2
      intro hnil
      rw [hnil] at hd
      exact absurd hd (by simp))
    rw [List.length_append]
    omega
  have h1 := dropLit_append "[out:json][timeout:25];(".toList
    ((concatClauses clauses).toList ++ ");out center;".toList)
  have h2 := checkClauses_concat clauses ");out center;".toList
    ((concatClauses clauses).toList ++ ");out center;".toList).length
    hlen hne hcl (by decide)
  have h3 := dropLit_self ");out center;".toList
  simp only [h1, h2, h3]

theorem sixDecimal_format6 (q : ℚ) : sixDecimal (format6 q) = true := by
  obtain ⟨sgn, ip, fp, heq, hsgn, hip, hipd, hfplen, hfpd⟩ := format6_shape q
  have hds : dropSign (format6 q).toList = ip ++ '.' :: fp := by
    rw [heq]
    rcases hsgn with rfl | rfl
    · simp only [List.nil_append]
      have := dropSign_digits ip ('.' :: fp) hip hipd
      simpa using this
    · simp [dropSign]
  have hdot : ∀ c : Char, ('.' :: fp).head? = some c → c.isDigit = false := by
    intro c hc
    injection hc with hc
    subst hc
    decide
  unfold sixDecimal
  rw [hds]
  rw [dropWhile_all_append _ ip ('.' :: fp) hipd hdot]
  rw [takeWhile_all_append _ ip ('.' :: fp) hipd hdot]
  show (!ip.isEmpty && fp.length == 6 && fp.all Char.isDigit) = true
  rw [Bool.and_eq_true, Bool.and_eq_true]
  refine ⟨⟨?_, ?_⟩, ?_⟩
  · cases ip with
    | nil => exact absurd rfl hip
    | cons _ _ => rfl
  · rw [hfplen]
    rfl
  · rw [List.all_eq_true]
    exact hfpd

theorem format6_no_bracket (q : ℚ) : '[' ∉ (format6 q).toList := by
  intro hc
  obtain ⟨sgn, ip, fp, heq, hsgn, _, hipd, _, hfpd⟩ := format6_shape q
  rw [heq] at hc
  simp only [List.mem_append, List.mem_cons] at hc
  rcases hc with (hc | hc) | hc | hc
  · rcases hsgn with rfl | rfl
    · simp at hc
    · simp only [List.mem_singleton] at hc
      exact absurd hc (by decide)
  · have := hipd _ hc
    simp at this
  · exact absurd hc (by decide)
  · have := hfpd _ hc
    simp at this

theorem intStr_no_bracket (r : ℤ) : '[' ∉ (intStr r).toList := by
  intro hc
  rw [intStr_toList, List.mem_append] at hc
  rcases hc with hc | hc
  · split at hc
    · simp only [List.mem_singleton] at hc
      exact absurd hc (by decide)
    · simp at hc
  · have := natStr_isDigit _ _ hc
    simp at this

theorem centerStr_no_bracket (radiusMeters : ℤ) (lat lon : ℚ) :
    '[' ∉ (centerStr radiusMeters lat lon).toList := by
  intro hc
  unfold centerStr at hc
  simp only [toList_append, List.mem_append] at hc
  rcases hc with ((((hc | hc) | hc) | hc) | hc) | hc
  · exact absurd hc (by decide)
  · exact intStr_no_bracket _ hc
  · exact absurd hc (by decide)
  · exact format6_no_bracket _ hc
  · exact absurd hc (by decide)
  · exact format6_no_bracket _ hc

theorem build_prefix (lat lon : ℚ) (radiusMeters : ℤ)
    (whitelist : List PoiWhitelistEntry) :
    ∃ tail : String, buildOverpassQuery lat lon radiusMeters whitelist =
      ("[out:json][timeout:25];(node(" ++ centerStr radiusMeters lat lon) ++ tail := by
  cases whitelist with
  | nil =>
    refine ⟨");" ++ ");out center;", ?_⟩
    show "[out:json][timeout:25];(" ++
      ("node(" ++ centerStr radiusMeters lat lon ++ ");") ++ ");out center;" = _
    simp only [String.append_assoc]
    rfl
  | cons w ws =>
    by_cases hv : w.value.isEmpty
    · refine ⟨")[\"" ++ w.key ++ "\"];" ++
        (concatClauses (ws.map (clauseFor (centerStr radiusMeters lat lon))) ++
          ");out center;"), ?_⟩
      show "[out:json][timeout:25];(" ++
        concatClauses ((w :: ws).map (clauseFor (centerStr radiusMeters lat lon))) ++
        ");out center;" = _
      rw [List.map_cons, concatClauses_cons]
      unfold clauseFor
      rw [if_pos hv]
      simp only [String.append_assoc]
      rfl
    · refine ⟨")[\"" ++ w.key ++ "\"=\"" ++ w.value ++ "\"];" ++
        (concatClauses (ws.map (clauseFor (centerStr radiusMeters lat lon))) ++
          ");out center;"), ?_⟩
      show "[out:json][timeout:25];(" ++
        concatClauses ((w :: ws).map (clauseFor (centerStr radiusMeters lat lon))) ++
        ");out center;" = _
      rw [List.map_cons, concatClauses_cons]
      unfold clauseFor
      rw [if_neg hv]
      simp only [String.append_assoc]
      rfl

/-! ## C3: one clause per whitelist entry, OR semantics -/

/-- C3: the built query is the fixed header, a clause body and the fixed
footer, where the body is exactly one unfiltered node clause when the
whitelist is empty (no tag filter: no `[` occurs in it), and exactly one
node filter clause per whitelist entry otherwise — each clause generated
from that single entry alone, with the value pinned exactly when the
entry's value is non-empty. Clauses are separate union members joined in
one `(...)` group (server-side OR), never stacked filters on one clause
(AND). -/
theorem query_clause_structure (lat lon : ℚ) (radiusMeters : ℤ)
    (whitelist : List PoiWhitelistEntry) :
    ∃ clauses : List String,
      buildOverpassQuery lat lon radiusMeters whitelist =
        "[out:json][timeout:25];(" ++ concatClauses clauses ++ ");out center;" ∧
      (whitelist = [] →
        clauses = ["node(" ++ centerStr radiusMeters lat lon ++ ");"] ∧
        ∀ c ∈ clauses, '[' ∉ c.toList) ∧
      (whitelist ≠ [] →
        clauses = whitelist.map (clauseFor (centerStr radiusMeters lat lon)) ∧
        clauses.length = whitelist.length ∧
        ∀ i, (hi : i < whitelist.length) →
          clauses[i]? = some (clauseFor (centerStr radiusMeters lat lon)
            whitelist[i]) ∧
          (whitelist[i].value = "" →
            clauseFor (centerStr radiusMeters lat lon) whitelist[i] =
              "node(" ++ centerStr radiusMeters lat lon ++ ")[\"" ++
                whitelist[i].key ++ "\"];") ∧
          (whitelist[i].value ≠ "" →
            clauseFor (centerStr radiusMeters lat lon) whitelist[i] =
              "node(" ++ centerStr radiusMeters lat lon ++ ")[\"" ++
                whitelist[i].key ++ "\"=\"" ++ whitelist[i].value ++ "\"];")) := by
  cases whitelist with
  | nil =>
    refine ⟨["node(" ++ centerStr radiusMeters lat lon ++ ");"], ?_, ?_, ?_⟩
    · show "[out:json][timeout:25];(" ++
        ("node(" ++ centerStr radiusMeters lat lon ++ ");") ++ ");out center;" = _
      rw [concatClauses_singleton]
    · intro _
      refine ⟨rfl, ?_⟩
      intro c hc
      rw [List.mem_singleton] at hc
      subst hc
      intro hmem
      simp only [toList_append, List.mem_append] at hmem
      rcases hmem with (hmem | hmem) | hmem
      · exact absurd hmem (by decide)
      · exact centerStr_no_bracket _ _ _ hmem
      · exact absurd hmem (by decide)
    · intro hne
      exact absurd rfl hne
  | cons w ws =>
    refine ⟨(w :: ws).map (clauseFor (centerStr radiusMeters lat lon)),
      rfl, ?_, ?_⟩
    · intro h
      exact absurd h (List.cons_ne_nil _ _)
    · intro _
      refine ⟨rfl, by simp, ?_⟩
      intro i hi
      refine ⟨?_, ?_, ?_⟩
      · rw [List.getElem?_map, List.getElem?_eq_getElem hi]
        rfl
      · intro hv
        unfold clauseFor
        rw [if_pos ((String.isEmpty_iff _).mpr hv)]
      · intro hv
        unfold clauseFor
        rw [if_neg (fun hc => hv ((String.isEmpty_iff _).mp hc))]

theorem query_clause_structure_witness :
    ∃ clauses : List String,
      buildOverpassQuery 0 0 100 [] =
        "[out:json][timeout:25];(" ++ concatClauses clauses ++ ");out center;" ∧
      clauses = ["node(" ++ centerStr 100 0 0 ++ ");"] := by
  obtain ⟨clauses, h1, h2, _⟩ := query_clause_structure 0 0 100 []
  exact ⟨clauses, h1, (h2 rfl).1⟩

/-! ## C8: well-formedness, literal radius, six-decimal coordinates -/

/-- C8 (amended: the whitelist's keys and values contain no quote
character — with an embedded quote the query is corrupted, see the
counterexample): for every radius r ≥ 0, center within valid bounds and
quote-free whitelist, the built query is syntactically well-formed,
contains the radius as a literal decimal integer and contains both
coordinates formatted with exactly six decimal places and no scientific
notation. -/
theorem query_wellformed_and_literals (lat lon : ℚ) (radiusMeters : ℤ)
    (whitelist : List PoiWhitelistEntry)
    (hr : 0 ≤ radiusMeters)
    (hlat1 : -90 ≤ lat) (hlat2 : lat ≤ 90)
    (hlon1 : -180 ≤ lon) (hlon2 : lon ≤ 180)
    (hwq : ∀ w ∈ whitelist, noQuote w.key = true ∧ noQuote w.value = true) :
    wellFormedQuery (buildOverpassQuery lat lon radiusMeters whitelist) = true ∧
    (∃ a b : String, buildOverpassQuery lat lon radiusMeters whitelist =
      a ++ intStr radiusMeters ++ b) ∧
    (∃ a b : String, buildOverpassQuery lat lon radiusMeters whitelist =
      a ++ format6 lat ++ b) ∧
    (∃ a b : String, buildOverpassQuery lat lon radiusMeters whitelist =
      a ++ format6 lon ++ b) ∧
    sixDecimal (format6 lat) = true ∧ sixDecimal (format6 lon) = true := by
  obtain ⟨tail, htail⟩ := build_prefix lat lon radiusMeters whitelist
  refine ⟨?_, ?_, ?_, ?_, sixDecimal_format6 lat, sixDecimal_format6 lon⟩
  · cases whitelist with
    | nil =>
      show wellFormedQuery ("[out:json][timeout:25];(" ++
        ("node(" ++ centerStr radiusMeters lat lon ++ ");") ++
        ");out center;") = true
      rw [← concatClauses_singleton
        ("node(" ++ centerStr radiusMeters lat lon ++ ");")]
      apply wellFormedQuery_build
      · exact List.cons_ne_nil _ _
      · intro c hc
        rw [List.mem_singleton] at hc
        subst hc
        exact ⟨fun r => checkClause_unfiltered radiusMeters lat lon r, rfl⟩
    | cons w ws =>
      show wellFormedQuery ("[out:json][timeout:25];(" ++
        concatClauses ((w :: ws).map (clauseFor (centerStr radiusMeters lat lon)))
        ++ ");out center;") = true
      apply wellFormedQuery_build
      · simp
      · intro c hc
        rw [List.mem_map] at hc
        obtain ⟨w2, hw2, rfl⟩ := hc
        obtain ⟨hk, hv⟩ := hwq w2 hw2
        exact ⟨fun r => checkClause_clauseFor radiusMeters lat lon w2 r hk hv,
          clauseFor_head _ _⟩
  · refine ⟨"[out:json][timeout:25];(node(around:",
      "," ++ format6 lat ++ "," ++ format6 lon ++ tail, ?_⟩
    rw [htail]
    unfold centerStr
    simp only [String.append_assoc]
    rfl
  · refine ⟨"[out:json][timeout:25];(node(around:" ++ intStr radiusMeters ++ ",",
      "," ++ format6 lon ++ tail, ?_⟩
    rw [htail]
    unfold centerStr
    simp only [String.append_assoc]
    rfl
  · refine ⟨"[out:json][timeout:25];(node(around:" ++ intStr radiusMeters ++
      "," ++ format6 lat ++ ",", tail, ?_⟩
    rw [htail]
    unfold centerStr
    simp only [String.append_assoc]
    rfl

/-- C8, counterexample to the claim as stated: at radius 100 ≥ 0 and the
valid center (0,0), the whitelist entry with key `a"b` satisfies every
precondition of the claim, yet the built query fails the well-formedness
recognizer — the quote corrupts the quoted key region. -/
theorem query_wellformed_counterexample :
    (0 : ℤ) ≤ 100 ∧ (-90 : ℚ) ≤ 0 ∧ (0 : ℚ) ≤ 90 ∧ (-180 : ℚ) ≤ 0 ∧
      (0 : ℚ) ≤ 180 ∧
    wellFormedQuery (buildOverpassQuery 0 0 100
      [{ key := "a\"b", value := "" }]) = false :=
  ⟨by norm_num, by norm_num, by norm_num, by norm_num, by norm_num, rfl⟩

theorem query_wellformed_and_literals_witness :
    wellFormedQuery (buildOverpassQuery 0 0 100
      [{ key := "amenity", value := "pub" }]) = true :=
  (query_wellformed_and_literals 0 0 100 [{ key := "amenity", value := "pub" }]
    (by norm_num) (by norm_num) (by norm_num) (by norm_num) (by norm_num)
    (by
      intro w hw
      rw [List.mem_singleton] at hw
      subst hw
      exact ⟨rfl, rfl⟩)).1

end PoiOsm
